import Mathlib

/-!
Verification of the float8 library (IEEE 754 FP8 E4M3FN-style format).

Shallow embedding of the Go source:
* `Float8` values are modelled as `Nat` bit patterns `< 256`.
* `float32` values are modelled as their IEEE 754 binary32 bit patterns
  (`Nat < 2^32`); the Go built-in float32 arithmetic (`+`, `-`, `*`, `/`, `<`)
  is modelled by correctly rounded (round-to-nearest-even) operations on
  those bit patterns, computed through exact integer/rational arithmetic.
* Field extraction written with `>>`/`&` in the source is expressed with
  division/modulus by the corresponding powers of two (the same functions
  on the value range involved); the original expression is kept in a comment.
-/

namespace Float8

/-! ### Format constants (from the `Float8` constant block) -/

def SignMask : Nat := 0x80
def ExponentMask : Nat := 0x78
def MantissaMask : Nat := 0x07
def MantissaLen : Nat := 3
def ExponentBias : Int := 7
def ExponentMax : Int := 15
def ExponentMin : Int := -7
def Float32Bias : Int := 127
def PositiveZero : Nat := 0x00
def NegativeZero : Nat := 0x80
def PositiveInfinity : Nat := 0x78
def NegativeInfinity : Nat := 0xF8
def NaN : Nat := 0x7F
def MaxValue : Nat := 0x7E
def MinValue : Nat := 0xFE

/-! ### Float8 classification predicates (from float8.go / part_002) -/

-- func (f Float8) IsZero() bool { return f == PositiveZero || f == NegativeZero }
def IsZero (f : Nat) : Bool := f == PositiveZero || f == NegativeZero

-- func (f Float8) IsInf() bool { return f == PositiveInfinity || f == NegativeInfinity }
def IsInf (f : Nat) : Bool := f == PositiveInfinity || f == NegativeInfinity

-- func (f Float8) IsNaN() bool { return (f&0x7F == 0x7F) && (f&0x07 == 0x07) }
def IsNaN (f : Nat) : Bool := (f &&& 0x7F == 0x7F) && (f &&& 0x07 == 0x07)

-- func (f Float8) IsFinite() bool: exponent bits not all ones
def IsFinite (f : Nat) : Bool := (f &&& ExponentMask) / 8 < 0x0F

-- func (f Float8) Neg() Float8 { if f.IsZero() { return f }; return f ^ SignMask }
def Neg (f : Nat) : Nat := if IsZero f then f else f ^^^ SignMask

-- func (f Float8) Abs() Float8 { return f &^ SignMask }
def Abs (f : Nat) : Nat := f &&& 0x7F

-- func (f Float8) Sign() int
def Sign (f : Nat) : Int :=
  if IsNaN f then 0
  else if IsZero f then 0
  else if f &&& SignMask != 0 then -1
  else 1

/-! ### binary32 bit-pattern model

A Go `float32` is modelled by its IEEE 754 bit pattern (a `Nat < 2^32`).
-/

-- sign bit: bits >> 31
def s32 (b : Nat) : Nat := b / 0x80000000
-- exponent field: (bits >> 23) & 0xFF
def e32 (b : Nat) : Nat := b / 0x800000 % 0x100
-- mantissa field: bits & 0x7FFFFF
def m32 (b : Nat) : Nat := b % 0x800000

def isNaN32 (b : Nat) : Bool := e32 b == 255 && m32 b != 0
def isInf32 (b : Nat) : Bool := e32 b == 255 && m32 b == 0
-- `f32 == 0.0` in Go is true exactly for the two zero bit patterns
def isZero32 (b : Nat) : Bool := e32 b == 0 && m32 b == 0

-- the quiet NaN produced by Go arithmetic / float32(math.NaN()); only its
-- NaN-ness is ever observed downstream
def qNaN32 : Nat := 0x7FC00000
def plusInf32 : Nat := 0x7F800000
def minusInf32 : Nat := 0xFF800000

/-- Exact value of a finite binary32 bit pattern, in units of 2^(-149)
(the smallest subnormal).  Normal: ±(2^23+m)·2^(e-1); subnormal: ±m. -/
def val32 (b : Nat) : Int :=
  (if s32 b == 1 then (-1 : Int) else 1) *
    (if e32 b == 0 then (m32 b : Int) else ((0x800000 + m32 b) <<< (e32 b - 1) : Nat))

/-! ### Correct rounding of a positive rational to binary32

`roundF32 sgn num den` is the binary32 bit pattern nearest (ties to even)
to `(num/den)·2^(-149)`, with the given sign bit, saturating to the signed
infinity on exponent overflow and flushing to signed zero on total underflow.
This is the IEEE 754 round-to-nearest-even semantics used by Go's float32
`+`, `-`, `*`, `/` once the exact result is expressed as a rational.
-/

/-- Round-to-nearest-even integer division. -/
def rneDiv (n d : Nat) : Nat :=
  let q := n / d
  let r := n % d
  if 2 * r > d then q + 1
  else if 2 * r == d then (if q % 2 == 1 then q + 1 else q)
  else q

/-- `ratGE num den e` decides `num/den ≥ 2^e` for an integer `e`. -/
def ratGE (num den : Nat) (e : Int) : Bool :=
  if e ≥ 0 then den <<< e.toNat ≤ num else den ≤ num <<< (-e).toNat

def roundF32 (sgn : Bool) (num den : Nat) : Nat :=
  let sb : Nat := if sgn then 0x80000000 else 0
  -- floor of log2(num/den): Nat.log2 num - Nat.log2 den, corrected downward
  let l : Int := (Nat.log2 num : Int) - (Nat.log2 den : Int)
  let e : Int := if ratGE num den l then l else l - 1
  if e < -126 then
    -- subnormal (or zero after rounding): round at fixed scale 2^(-149);
    -- a result of exactly 2^23 lands on the smallest normal encoding
    sb + rneDiv (num <<< 149) den
  else
    -- normal: round the significand to 24 bits
    let sh : Int := 23 - e
    let n := if sh ≥ 0 then num <<< sh.toNat else num
    let d := if sh ≥ 0 then den else den <<< (-sh).toNat
    let q := rneDiv n d
    let q2 := if q == 0x1000000 then 0x800000 else q
    let e2 := if q == 0x1000000 then e + 1 else e
    if e2 > 127 then sb + 0x7F800000
    else sb + ((e2 + 127).toNat <<< 23) + (q2 - 0x800000)

/-! ### Go float32 arithmetic on bit patterns -/

/-- Go `f32a + f32b` (IEEE 754 binary32 addition, round-to-nearest-even). -/
def f32add (x y : Nat) : Nat :=
  if isNaN32 x || isNaN32 y then qNaN32
  else if isInf32 x && isInf32 y then (if s32 x == s32 y then x else qNaN32)
  else if isInf32 x then x
  else if isInf32 y then y
  else
    let v : Int := val32 x + val32 y
    if v == 0 then (if s32 x == 1 && s32 y == 1 then 0x80000000 else 0)
    else roundF32 (decide (v < 0)) v.natAbs (1 <<< 149)

/-- Go `f32a - f32b`; IEEE 754 subtraction is addition of the operand with
its sign bit flipped. -/
def f32sub (x y : Nat) : Nat := f32add x (y ^^^ 0x80000000)

/-- Go `f32a * f32b` (IEEE 754 binary32 multiplication). -/
def f32mul (x y : Nat) : Nat :=
  if isNaN32 x || isNaN32 y then qNaN32
  else if (isInf32 x && isZero32 y) || (isZero32 x && isInf32 y) then qNaN32
  else
    let sgn := s32 x ^^^ s32 y
    if isInf32 x || isInf32 y then (if sgn == 1 then minusInf32 else plusInf32)
    else if isZero32 x || isZero32 y then (if sgn == 1 then 0x80000000 else 0)
    else roundF32 (sgn == 1) ((val32 x).natAbs * (val32 y).natAbs) (1 <<< 298)

/-- Go `f32a / f32b` (IEEE 754 binary32 division). -/
def f32div (x y : Nat) : Nat :=
  if isNaN32 x || isNaN32 y then qNaN32
  else if isInf32 x && isInf32 y then qNaN32
  else if isZero32 x && isZero32 y then qNaN32
  else
    let sgn := s32 x ^^^ s32 y
    if isInf32 x then (if sgn == 1 then minusInf32 else plusInf32)
    else if isInf32 y then (if sgn == 1 then 0x80000000 else 0)
    else if isZero32 y then (if sgn == 1 then minusInf32 else plusInf32)
    else if isZero32 x then (if sgn == 1 then 0x80000000 else 0)
    else roundF32 (sgn == 1) (val32 x).natAbs (val32 y).natAbs

/-- Extended value for ordering: finite values by `val32`, infinities by a
sentinel larger than every finite magnitude (max finite < 2^278 units). -/
def extv (b : Nat) : Int :=
  if isInf32 b then (if s32 b == 1 then -((1 <<< 300 : Nat) : Int) else ((1 <<< 300 : Nat) : Int))
  else val32 b

/-- Go `f32a < f32b`: false when either operand is NaN, otherwise numeric
order. -/
def f32lt (x y : Nat) : Bool :=
  if isNaN32 x || isNaN32 y then false else decide (extv x < extv y)

/-! ### Conversion modes and errors (from float8.go) -/

inductive ConversionMode where
  | ModeDefault
  | ModeStrict
  | ModeFast
deriving DecidableEq, Repr

structure Float8Error where
  op : String
  value : Nat   -- the offending float32 input, as its bit pattern
  msg : String
deriving DecidableEq, Repr

def ErrNaN : Float8Error := ⟨"convert", 0, "NaN not representable in float8"⟩

end Float8

open Float8 Float8.ConversionMode

namespace Float8

/-! ### Codec (from the conversion source file) -/

/-- `func (f Float8) toFloat32Algorithmic() float32`, returning the bit
pattern of the resulting float32. -/
def toFloat32Algorithmic (f : Nat) : Nat :=
  if IsZero f then (if f == NegativeZero then 0x80000000 else 0)
  else if IsNaN f then qNaN32
  else if f == PositiveInfinity then plusInf32
  else if f == NegativeInfinity then minusInf32
  else
    let sign := f / 0x80              -- uint32(f) >> 7
    let exp8 := f / 8 % 0x10          -- (uint32(f) >> MantissaLen) & 0x0F
    let mant8 := f % 8                -- uint32(f) & MantissaMask
    -- exp8 - ExponentBias + Float32Bias in uint32 arithmetic; exp8 ≤ 15 so
    -- the wrap of the intermediate subtraction cancels and this is exp8+120
    let exp32 := exp8 + 120
    let mant32 := mant8 <<< 20        -- mant8 << (23 - MantissaLen)
    (sign <<< 31) ||| (exp32 <<< 23) ||| mant32

/-- `func (f Float8) ToFloat32() float32`.  The optional conversion lookup
table is built by applying `toFloat32Algorithmic` to every byte, so the
table path computes the same function. -/
def ToFloat32 (f : Nat) : Nat := toFloat32Algorithmic f

/-- Final bit composition of `ToFloat8WithMode`:
`Float8((sign << 7) | (uint32(exp8) << MantissaLen) | mant8)` with uint32
wrap-around of the (possibly negative) exponent and uint8 truncation. -/
def composeF8 (sign : Nat) (exp8 : Int) (mant8 : Nat) : Nat :=
  ((sign <<< 7) ||| (((exp8 % 4294967296).toNat <<< 3) % 4294967296) ||| mant8) % 256

/-- `func ToFloat8WithMode(f32 float32, mode ConversionMode) (Float8, error)`.
The Go pair return `(value, err)` is modelled as `Nat × Option Float8Error`. -/
def ToFloat8WithMode (f32 : Nat) (mode : ConversionMode) : Nat × Option Float8Error :=
  -- if f32 == 0.0 (true for both zero bit patterns, math.Signbit picks sign)
  if isZero32 f32 then
    (if s32 f32 == 1 then (NegativeZero, none) else (PositiveZero, none))
  -- if math.IsInf(float64(f32), 0); `f32 > 0` is sign-bit-clear for an infinity
  else if isInf32 f32 then
    (if s32 f32 == 0 then (PositiveInfinity, none) else (NegativeInfinity, none))
  else if isNaN32 f32 then
    (if mode == ModeStrict then (0, some ErrNaN) else (NaN, none))
  else
    let sign := s32 f32               -- bits >> 31
    let exp : Int := e32 f32          -- int32((bits >> 23) & 0xFF)
    let mant := m32 f32               -- bits & 0x7FFFFF
    -- if exp == 0 && mant == 0 (unreachable: caught by the zero test above)
    if exp == 0 && mant == 0 then
      (if sign == 1 then (NegativeZero, none) else (PositiveZero, none))
    else
      let exp8 : Int := exp - Float32Bias + ExponentBias
      if exp8 > ExponentMax then
        (if mode == ModeStrict then
          (0, some ⟨"convert", f32, "overflow: value too large for float8"⟩)
        else if sign == 1 then (NegativeInfinity, none) else (PositiveInfinity, none))
      else if exp8 < ExponentMin then
        (if mode == ModeStrict then
          (0, some ⟨"convert", f32, "underflow: value too small for float8"⟩)
        else if sign == 1 then (NegativeZero, none) else (PositiveZero, none))
      else
        let mant8 := mant / 0x100000  -- mant >> (23 - MantissaLen)
        -- if (mant>>(23-MantissaLen-1))&1 != 0 { round up }
        if mant / 0x80000 % 2 == 1 then
          if mant8 + 1 ≥ 8 then       -- mantissa overflow after increment
            if exp8 + 1 > ExponentMax then
              (if mode == ModeStrict then
                (0, some ⟨"convert", f32, "overflow after rounding"⟩)
              else if sign == 1 then (NegativeInfinity, none) else (PositiveInfinity, none))
            else (composeF8 sign (exp8 + 1) 0, none)
          else (composeF8 sign exp8 (mant8 + 1), none)
        else (composeF8 sign exp8 mant8, none)

/-- `func ToFloat8(f32 float32) Float8` — uses the global
`DefaultConversionMode`, which is initialised to `ModeDefault`, and drops
the error. -/
def ToFloat8 (f32 : Nat) : Nat := (ToFloat8WithMode f32 ModeDefault).1

/-! ### Algorithmic arithmetic (from arithmetic.go) -/

-- func addAlgorithmic(a, b Float8) Float8
def addAlgorithmic (a b : Nat) : Nat :=
  if IsZero a then b
  else if IsZero b then a
  else if IsInf a || IsInf b then
    if a == PositiveInfinity && b == NegativeInfinity then PositiveZero
    else if a == NegativeInfinity && b == PositiveInfinity then PositiveZero
    else if IsInf a then a
    else b
  else ToFloat8 (f32add (ToFloat32 a) (ToFloat32 b))

-- func subAlgorithmic(a, b Float8) Float8
def subAlgorithmic (a b : Nat) : Nat :=
  if IsZero b then a
  else if IsZero a then Neg b
  else if IsInf a || IsInf b then
    if a == b && IsInf a then PositiveZero
    else if IsInf a then a
    else Neg b
  else ToFloat8 (f32sub (ToFloat32 a) (ToFloat32 b))

-- func mulAlgorithmic(a, b Float8) Float8
def mulAlgorithmic (a b : Nat) : Nat :=
  if IsNaN a || IsNaN b then NaN
  else
    let signA : Int := if a &&& SignMask != 0 then -1 else 1
    let signB : Int := if b &&& SignMask != 0 then -1 else 1
    if (IsInf a && IsZero b) || (IsZero a && IsInf b) then NaN
    else if IsZero a || IsZero b then
      (if signA * signB < 0 then NegativeZero else PositiveZero)
    else if IsInf a || IsInf b then
      (if signA * signB > 0 then PositiveInfinity else NegativeInfinity)
    else ToFloat8 (f32mul (ToFloat32 a) (ToFloat32 b))

-- func divAlgorithmic(a, b Float8) Float8
def divAlgorithmic (a b : Nat) : Nat :=
  if IsNaN a || IsNaN b then NaN
  else if IsZero b then
    if IsZero a then NaN
    else if (a &&& SignMask != 0) == (b &&& SignMask != 0) then PositiveInfinity
    else NegativeInfinity
  else if IsZero a then
    if (a &&& SignMask != 0) != (b &&& SignMask != 0) then NegativeZero
    else PositiveZero
  else if IsInf a then
    if IsInf b then NaN
    else if (a &&& SignMask != 0) == (b &&& SignMask != 0) then PositiveInfinity
    else NegativeInfinity
  else if IsInf b then
    if (a &&& SignMask != 0) == (b &&& SignMask != 0) then PositiveZero
    else NegativeZero
  else
    let result := f32div (ToFloat32 a) (ToFloat32 b)
    -- if math.IsInf(float64(result), 0): overflow of the float32 division
    if isInf32 result then
      if (decide (Sign a > 0)) == (decide (Sign b > 0)) then PositiveInfinity
      else NegativeInfinity
    else ToFloat8 result

/-! ### Ordering layer (from arithmetic.go) -/

-- func Less(a, b Float8) bool
def Less (a b : Nat) : Bool :=
  if IsNaN a || IsNaN b then false
  else if IsZero a && IsZero b then false
  else
    let aInf := IsInf a
    let bInf := IsInf b
    if aInf && bInf then a == NegativeInfinity && b == PositiveInfinity
    else if aInf then a == NegativeInfinity
    else if bInf then b == PositiveInfinity
    else f32lt (ToFloat32 a) (ToFloat32 b)

-- func Greater(a, b Float8) bool { return Less(b, a) }
def Greater (a b : Nat) : Bool := Less b a

-- func Min(a, b Float8) Float8
def Min (a b : Nat) : Nat :=
  if IsNaN a || IsNaN b then NaN
  else if a == NegativeInfinity || b == NegativeInfinity then NegativeInfinity
  else if a == PositiveInfinity then b
  else if b == PositiveInfinity then a
  else if Less a b then a
  else b

-- func Max(a, b Float8) Float8
def Max (a b : Nat) : Nat :=
  if IsNaN a || IsNaN b then NaN
  else if a == PositiveInfinity || b == PositiveInfinity then PositiveInfinity
  else if a == NegativeInfinity then b
  else if b == NegativeInfinity then a
  else if Greater a b then a
  else b

/-! ### Lookup tables and mode dispatch (from arithmetic.go)

`initArithmeticTables` fills each 65536-entry table at index
`idx = a<<8|b` (for byte operands the operand bits are disjoint, so the
index is `a * 256 + b`, with `a = idx>>8 = idx / 256` and
`b = idx&0xFF = idx % 256`) with the algorithmic result.  The global
"tables are non-nil" state set up by `EnableFastArithmetic` is passed
explicitly as the `tablesEnabled` flag.
-/

inductive ArithmeticMode where
  | ArithmeticAuto
  | ArithmeticAlgorithmic
  | ArithmeticLookup
deriving DecidableEq, Repr

def mkTable (f : Nat → Nat → Nat) : List Nat :=
  (List.range 65536).map (fun idx => f (idx / 256) (idx % 256))

def addTable : List Nat := mkTable addAlgorithmic
def subTable : List Nat := mkTable subAlgorithmic
def mulTable : List Nat := mkTable mulAlgorithmic
def divTable : List Nat := mkTable divAlgorithmic

open ArithmeticMode in
-- func AddWithMode(a, b Float8, mode ArithmeticMode) Float8:
--   if (mode == ArithmeticAuto || mode == ArithmeticLookup) && addTable != nil
--     { return addTable[uint16(a)<<8|uint16(b)] }   (index a*256+b for bytes)
--   return addAlgorithmic(a, b)
def AddWithMode (tablesEnabled : Bool) (a b : Nat) (mode : ArithmeticMode) : Nat :=
  if (mode == ArithmeticAuto || mode == ArithmeticLookup) && tablesEnabled then
    addTable.getD (a * 256 + b) 0
  else addAlgorithmic a b

open ArithmeticMode in
def SubWithMode (tablesEnabled : Bool) (a b : Nat) (mode : ArithmeticMode) : Nat :=
  if (mode == ArithmeticAuto || mode == ArithmeticLookup) && tablesEnabled then
    subTable.getD (a * 256 + b) 0
  else subAlgorithmic a b

open ArithmeticMode in
def MulWithMode (tablesEnabled : Bool) (a b : Nat) (mode : ArithmeticMode) : Nat :=
  if (mode == ArithmeticAuto || mode == ArithmeticLookup) && tablesEnabled then
    mulTable.getD (a * 256 + b) 0
  else mulAlgorithmic a b

open ArithmeticMode in
def DivWithMode (tablesEnabled : Bool) (a b : Nat) (mode : ArithmeticMode) : Nat :=
  if (mode == ArithmeticAuto || mode == ArithmeticLookup) && tablesEnabled then
    divTable.getD (a * 256 + b) 0
  else divAlgorithmic a b

end Float8

/-! ## Theorems -/

set_option maxRecDepth 100000

open Float8 Float8.ArithmeticMode

/-- Any entry of a 65536-entry operator table built by
`initArithmeticTables` equals the algorithmic operator applied to the
operands encoded in its index. -/
theorem Float8.mkTable_getD (f : Nat → Nat → Nat) {a b : Nat}
    (ha : a < 256) (hb : b < 256) :
    (mkTable f).getD (a * 256 + b) 0 = f a b := by
  have hidx : a * 256 + b < 65536 := by omega
  unfold mkTable
  rw [List.getD_eq_getElem?_getD, List.getElem?_map, List.getElem?_range hidx]
  simp only [Option.map_some', Option.getD_some]
  congr 1 <;> omega

/-- C1: for every one of the 256 possible 8-bit values `v` except the two
NaN bit patterns, encoding the float32 obtained by decoding `v` back to
Float8 in Default mode reproduces `v` exactly; for the two NaN patterns the
round trip yields a NaN encoding. -/
theorem roundtrip_default (v : Nat) (hv : v < 256) :
    (IsNaN v = false → (ToFloat8WithMode (ToFloat32 v) ModeDefault).1 = v) ∧
    (IsNaN v = true → IsNaN (ToFloat8WithMode (ToFloat32 v) ModeDefault).1 = true) := by
  revert v hv; decide

theorem roundtrip_default_witness :
    (0x42 : Nat) < 256 ∧ IsNaN 0x42 = false ∧
    (ToFloat8WithMode (ToFloat32 0x42) ModeDefault).1 = 0x42 :=
  ⟨by decide, by decide, (roundtrip_default 0x42 (by decide)).1 (by decide)⟩

/-- C2 (failing input): `addAlgorithmic` and `subAlgorithmic` check zeros
and infinities before NaN, so a NaN operand combined with an infinity
returns the infinity: `addAlgorithmic(NaN, +Inf) = +Inf` and
`subAlgorithmic(NaN, +Inf) = -Inf`, which are not NaN — contradicting the
claimed (and documented) NaN dominance. -/
theorem nan_dominance_failing_input :
    IsNaN 0x7F = true ∧
    addAlgorithmic 0x7F 0x78 = 0x78 ∧ IsNaN 0x78 = false ∧
    subAlgorithmic 0x7F 0x78 = 0xF8 ∧ IsNaN 0xF8 = false := by decide

/-- C3: with the lookup tables built (`EnableFastArithmetic`), the
table-dispatched result equals the algorithmic result for every operand
pair and every operator, in both Auto and Lookup modes. -/
theorem tables_match_algorithmic (a b : Nat) (ha : a < 256) (hb : b < 256) :
    (AddWithMode true a b ArithmeticAuto = addAlgorithmic a b ∧
     SubWithMode true a b ArithmeticAuto = subAlgorithmic a b ∧
     MulWithMode true a b ArithmeticAuto = mulAlgorithmic a b ∧
     DivWithMode true a b ArithmeticAuto = divAlgorithmic a b) ∧
    (AddWithMode true a b ArithmeticLookup = addAlgorithmic a b ∧
     SubWithMode true a b ArithmeticLookup = subAlgorithmic a b ∧
     MulWithMode true a b ArithmeticLookup = mulAlgorithmic a b ∧
     DivWithMode true a b ArithmeticLookup = divAlgorithmic a b) := by
  unfold AddWithMode SubWithMode MulWithMode DivWithMode
  unfold addTable subTable mulTable divTable
  simp only [Float8.mkTable_getD _ ha hb]
  simp

theorem tables_match_algorithmic_witness :
    (3 : Nat) < 256 ∧ (5 : Nat) < 256 ∧
    AddWithMode true 3 5 ArithmeticAuto = addAlgorithmic 3 5 :=
  ⟨by decide, by decide, (tables_match_algorithmic 3 5 (by decide) (by decide)).1.1⟩

/-- C7 (amended): `add(x, +0) = x` for every finite `x` other than `-0`;
a zero-plus-zero sum returns the second operand, so `add(-0, +0) = +0` and
the sign of a zero-plus-zero result is the sign of the second operand. -/
theorem zero_identity_amended :
    (∀ x < 256, IsNaN x = false → IsInf x = false → x ≠ NegativeZero →
      addAlgorithmic x PositiveZero = x) ∧
    addAlgorithmic PositiveZero PositiveZero = PositiveZero ∧
    addAlgorithmic PositiveZero NegativeZero = NegativeZero ∧
    addAlgorithmic NegativeZero PositiveZero = PositiveZero ∧
    addAlgorithmic NegativeZero NegativeZero = NegativeZero :=
  ⟨by decide, by decide, by decide, by decide, by decide⟩

/-- C7 (counterexample): the claim fails at `x = -0`:
`add(-0, +0) = +0 ≠ -0`, and `add(+0, -0) = -0` is negative although not
both operands are negative. -/
theorem zero_identity_counterexample :
    addAlgorithmic NegativeZero PositiveZero ≠ NegativeZero ∧
    addAlgorithmic PositiveZero NegativeZero = NegativeZero := by decide

theorem zero_identity_amended_witness :
    (0x38 : Nat) < 256 ∧ IsNaN 0x38 = false ∧ IsInf 0x38 = false ∧
    (0x38 : Nat) ≠ NegativeZero ∧ addAlgorithmic 0x38 PositiveZero = 0x38 :=
  ⟨by decide, by decide, by decide, by decide,
    zero_identity_amended.1 0x38 (by decide) (by decide) (by decide) (by decide)⟩

/-- C10: negation leaves both zero bit patterns unchanged and flips exactly
the sign bit of every nonzero value. -/
theorem neg_preserves_zero_sign (f : Nat) (hf : f < 256) :
    Neg PositiveZero = PositiveZero ∧ Neg NegativeZero = NegativeZero ∧
    (IsZero f = false → Neg f = f ^^^ SignMask) := by
  revert f hf; decide

theorem neg_preserves_zero_sign_witness :
    (3 : Nat) < 256 ∧ IsZero 3 = false ∧ Neg 3 = 3 ^^^ SignMask :=
  ⟨by decide, by decide, (neg_preserves_zero_sign 3 (by decide)).2.2 (by decide)⟩

/-- C4: every finite nonzero float32 whose rebiased exponent falls below
the format minimum is flushed to signed zero with no error in Default
mode, and yields an Underflow error in Strict mode. -/
theorem underflow_behavior (bits : Nat) (h32 : bits < 4294967296)
    (hfin : e32 bits ≠ 255)
    (hnz : ¬(e32 bits = 0 ∧ m32 bits = 0))
    (hunder : (e32 bits : Int) - Float32Bias + ExponentBias < ExponentMin) :
    ToFloat8WithMode bits ModeDefault =
      ((if s32 bits = 1 then NegativeZero else PositiveZero), none) ∧
    ToFloat8WithMode bits ModeStrict =
      (0, some ⟨"convert", bits, "underflow: value too small for float8"⟩) := by
  have hz : isZero32 bits = false := by
    simp only [isZero32, Bool.and_eq_false_iff, beq_eq_false_iff_ne, ne_eq]
    by_cases he : e32 bits = 0
    · right; exact fun hm => hnz ⟨he, hm⟩
    · left; exact he
  have hi : isInf32 bits = false := by
    simp only [isInf32, Bool.and_eq_false_iff, beq_eq_false_iff_ne, ne_eq]
    left; exact hfin
  have hn : isNaN32 bits = false := by
    simp only [isNaN32, Bool.and_eq_false_iff, beq_eq_false_iff_ne, ne_eq]
    left; exact hfin
  have hm : (((e32 bits : Int) == 0) && (m32 bits == 0)) = false := by
    simp only [Bool.and_eq_false_iff, beq_eq_false_iff_ne, ne_eq]
    by_cases he : e32 bits = 0
    · right; exact fun hmm => hnz ⟨he, hmm⟩
    · left; exact_mod_cast he
  have hunder' : (e32 bits : Int) - 127 + 7 < -7 := by
    simpa [Float32Bias, ExponentBias, ExponentMin] using hunder
  have hno : ¬((e32 bits : Int) - 127 + 7 > 15) := by omega
  simp only [ToFloat8WithMode, hz, hi, hn, hm, Float32Bias, ExponentBias, ExponentMin,
    ExponentMax, Bool.false_eq_true, if_false]
  rw [if_neg hno, if_pos hunder']
  constructor
  · simp only [show (ModeDefault == ModeStrict) = false from rfl, Bool.false_eq_true, if_false]
    by_cases hs : s32 bits = 1 <;> simp [hs, NegativeZero, PositiveZero]
  · rw [if_neg (show ¬(15:Int) < (e32 bits : Int) - 127 + 7 by omega), if_pos hunder']
    simp

/-- Witness for C4, at the smallest positive float32 subnormal
(bit pattern 1): rebiased exponent 0 - 127 + 7 = -120 < -7. -/
theorem underflow_behavior_witness :
    (1 : Nat) < 4294967296 ∧ e32 1 ≠ 255 ∧ ¬(e32 1 = 0 ∧ m32 1 = 0) ∧
    (e32 1 : Int) - Float32Bias + ExponentBias < ExponentMin ∧
    ToFloat8WithMode 1 ModeDefault = (PositiveZero, none) ∧
    ToFloat8WithMode 1 ModeStrict =
      (0, some ⟨"convert", 1, "underflow: value too small for float8"⟩) := by
  refine ⟨by decide, by decide, by decide, by decide, ?_, ?_⟩
  · have h := (underflow_behavior 1 (by decide) (by decide) (by decide) (by decide)).1
    simpa using h
  · exact (underflow_behavior 1 (by decide) (by decide) (by decide) (by decide)).2

/-- The source's zero test holds exactly for the two zero bit patterns. -/
theorem isZero_iff {a : Nat} : IsZero a = true ↔ a = 0 ∨ a = 128 := by
  simp [IsZero, PositiveZero, NegativeZero]

/-- The source's infinity test holds exactly for the two infinity bit
patterns. -/
theorem isInf_iff {a : Nat} : IsInf a = true ↔ a = 120 ∨ a = 248 := by
  simp [IsInf, PositiveInfinity, NegativeInfinity]

/-- C5: division special-value matrix for non-NaN operands: 0/0 and
Inf/Inf give NaN; finite-nonzero/0 and Inf/finite-nonzero give the signed
infinity with sign the XOR of the operand signs; 0/finite-nonzero and
finite/Inf give the signed zero with sign the XOR of the operand signs;
in particular div(encode(1.0), -0) = -Inf (0xF8). -/
theorem div_special_values (a b : Nat) (ha : a < 256) (hb : b < 256)
    (hna : IsNaN a = false) (hnb : IsNaN b = false) :
    (IsZero a = true → IsZero b = true → divAlgorithmic a b = NaN) ∧
    (IsInf a = true → IsInf b = true → divAlgorithmic a b = NaN) ∧
    (IsZero a = false → IsInf a = false → IsZero b = true →
      divAlgorithmic a b =
        (if ((a &&& SignMask != 0) != (b &&& SignMask != 0)) then NegativeInfinity
         else PositiveInfinity)) ∧
    (IsInf a = true → IsZero b = false → IsInf b = false →
      divAlgorithmic a b =
        (if ((a &&& SignMask != 0) != (b &&& SignMask != 0)) then NegativeInfinity
         else PositiveInfinity)) ∧
    (IsZero a = true → IsZero b = false → IsInf b = false →
      divAlgorithmic a b =
        (if ((a &&& SignMask != 0) != (b &&& SignMask != 0)) then NegativeZero
         else PositiveZero)) ∧
    (IsInf a = false → IsInf b = true →
      divAlgorithmic a b =
        (if ((a &&& SignMask != 0) != (b &&& SignMask != 0)) then NegativeZero
         else PositiveZero)) ∧
    divAlgorithmic (ToFloat8 0x3F800000) NegativeZero = NegativeInfinity := by
  refine ⟨?_, ?_, ?_, ?_, ?_, ?_, by decide⟩
  · intro za zb
    rcases isZero_iff.mp za with rfl | rfl <;> rcases isZero_iff.mp zb with rfl | rfl <;> decide
  · intro ia ib
    rcases isInf_iff.mp ia with rfl | rfl <;> rcases isInf_iff.mp ib with rfl | rfl <;> decide
  · intro za ia zb
    rcases isZero_iff.mp zb with rfl | rfl <;> by_cases hsa : a &&& SignMask = 0
    · simp +decide [divAlgorithmic, hna, za, hsa, SignMask]
    · have hsa' : (a &&& SignMask != 0) = true := by simp [bne_iff_ne, hsa]
      simp +decide [divAlgorithmic, hna, za, hsa', SignMask]
    · simp +decide [divAlgorithmic, hna, za, hsa, SignMask]
    · have hsa' : (a &&& SignMask != 0) = true := by simp [bne_iff_ne, hsa]
      simp +decide [divAlgorithmic, hna, za, hsa', SignMask]
  · intro ia zb ib
    rcases isInf_iff.mp ia with rfl | rfl <;> by_cases hsb : b &&& SignMask = 0
    · simp +decide [divAlgorithmic, hnb, zb, ib, hsb, SignMask]
    · have hsb' : (b &&& SignMask != 0) = true := by simp [bne_iff_ne, hsb]
      simp +decide [divAlgorithmic, hnb, zb, ib, hsb', SignMask]
    · simp +decide [divAlgorithmic, hnb, zb, ib, hsb, SignMask]
    · have hsb' : (b &&& SignMask != 0) = true := by simp [bne_iff_ne, hsb]
      simp +decide [divAlgorithmic, hnb, zb, ib, hsb', SignMask]
  · intro za zb ib
    rcases isZero_iff.mp za with rfl | rfl <;> by_cases hsb : b &&& SignMask = 0
    · simp +decide [divAlgorithmic, hnb, zb, hsb, SignMask]
    · have hsb' : (b &&& SignMask != 0) = true := by simp [bne_iff_ne, hsb]
      simp +decide [divAlgorithmic, hnb, zb, hsb', SignMask]
    · simp +decide [divAlgorithmic, hnb, zb, hsb, SignMask]
    · have hsb' : (b &&& SignMask != 0) = true := by simp [bne_iff_ne, hsb]
      simp +decide [divAlgorithmic, hnb, zb, hsb', SignMask]
  · intro ia ib
    rcases isInf_iff.mp ib with rfl | rfl <;> by_cases za : IsZero a = true
    · rcases isZero_iff.mp za with rfl | rfl <;> decide
    · by_cases hsa : a &&& SignMask = 0
      · simp +decide [divAlgorithmic, hna, za, ia, hsa, SignMask]
      · have hsa' : (a &&& SignMask != 0) = true := by simp [bne_iff_ne, hsa]
        simp +decide [divAlgorithmic, hna, za, ia, hsa', SignMask]
    · rcases isZero_iff.mp za with rfl | rfl <;> decide
    · by_cases hsa : a &&& SignMask = 0
      · simp +decide [divAlgorithmic, hna, za, ia, hsa, SignMask]
      · have hsa' : (a &&& SignMask != 0) = true := by simp [bne_iff_ne, hsa]
        simp +decide [divAlgorithmic, hna, za, ia, hsa', SignMask]

theorem div_special_values_witness :
    (0x38 : Nat) < 256 ∧ (0x80 : Nat) < 256 ∧ IsNaN 0x38 = false ∧ IsNaN 0x80 = false ∧
    IsZero 0x38 = false ∧ IsInf 0x38 = false ∧ IsZero 0x80 = true ∧
    divAlgorithmic 0x38 0x80 = NegativeInfinity := by
  refine ⟨by decide, by decide, by decide, by decide, by decide, by decide, by decide, ?_⟩
  have h := (div_special_values 0x38 0x80 (by decide) (by decide) (by decide)
    (by decide)).2.2.1 (by decide) (by decide) (by decide)
  simpa using h

/-- Two infinity bit patterns with equal sign bits are the same pattern. -/
theorem inf32_eq {x y : Nat}
    (hix : isInf32 x = true) (hiy : isInf32 y = true) (hs : s32 x = s32 y) : x = y := by
  simp only [isInf32, Bool.and_eq_true, beq_iff_eq] at hix hiy
  unfold e32 m32 at hix hiy
  unfold s32 at hs
  omega

/-- The modelled binary32 addition is commutative. -/
theorem f32add_comm (x y : Nat) : f32add x y = f32add y x := by
  unfold f32add
  by_cases hnx : isNaN32 x = true <;> by_cases hny : isNaN32 y = true <;>
    simp only [hnx, hny, Bool.or_true, Bool.true_or, Bool.or_false, Bool.false_or,
      if_true, Bool.false_eq_true, if_false]
  by_cases hix : isInf32 x = true <;> by_cases hiy : isInf32 y = true <;>
    simp only [hix, hiy, Bool.and_true, Bool.true_and, Bool.and_false, Bool.false_and,
      if_true, if_false, Bool.false_eq_true]
  · by_cases hs : s32 x = s32 y
    · rw [inf32_eq hix hiy hs]
    · rw [if_neg (by simpa using hs), if_neg (by simpa using fun h => hs h.symm)]
  · rw [Int.add_comm (val32 y) (val32 x), Bool.and_comm (s32 y == 1) (s32 x == 1)]

/-- The modelled binary32 multiplication is commutative. -/
theorem f32mul_comm (x y : Nat) : f32mul x y = f32mul y x := by
  unfold f32mul
  by_cases hnx : isNaN32 x = true <;> by_cases hny : isNaN32 y = true <;>
    simp only [hnx, hny, Bool.or_true, Bool.true_or, Bool.or_false, Bool.false_or,
      if_true, Bool.false_eq_true, if_false]
  rw [Bool.or_comm (isInf32 y && isZero32 x) (isZero32 y && isInf32 x),
    Bool.and_comm (isInf32 y) (isZero32 x), Bool.and_comm (isZero32 y) (isInf32 x),
    Nat.xor_comm (s32 y) (s32 x), Bool.or_comm (isInf32 y) (isInf32 x),
    Bool.or_comm (isZero32 y) (isZero32 x), Nat.mul_comm (val32 y).natAbs (val32 x).natAbs]

/-- C6 (amended): for finite operands, multiplication is commutative for
every pair, and addition is commutative for every pair except the two
oppositely-signed zero pairs. -/
theorem addmul_commutative (a b : Nat) (ha : a < 256) (hb : b < 256)
    (hna : IsNaN a = false) (hia : IsInf a = false)
    (hnb : IsNaN b = false) (hib : IsInf b = false) :
    (¬(IsZero a = true ∧ IsZero b = true ∧ a ≠ b) →
      addAlgorithmic a b = addAlgorithmic b a) ∧
    mulAlgorithmic a b = mulAlgorithmic b a := by
  constructor
  · intro hexc
    by_cases za : IsZero a = true <;> by_cases zb : IsZero b = true
    · have hab : a = b := by
        by_contra hne
        exact hexc ⟨za, zb, hne⟩
      rw [hab]
    · simp [addAlgorithmic, za, zb]
    · simp [addAlgorithmic, za, zb]
    · simp only [addAlgorithmic, za, zb, hia, hib, Bool.false_eq_true, if_false,
        Bool.or_self]
      rw [f32add_comm (ToFloat32 a) (ToFloat32 b)]
  · simp only [mulAlgorithmic, hna, hnb, hia, hib, Bool.or_self, Bool.false_eq_true,
      if_false, Bool.false_and, Bool.and_false, Bool.or_false, Bool.false_or]
    rw [Bool.or_comm (IsZero b) (IsZero a), Int.mul_comm, f32mul_comm (ToFloat32 b)]

/-- C6 (counterexample): addition is not commutative on oppositely-signed
zeros: `add(+0, -0) = -0` but `add(-0, +0) = +0`. -/
theorem addmul_commutative_counterexample :
    addAlgorithmic PositiveZero NegativeZero ≠ addAlgorithmic NegativeZero PositiveZero := by
  decide

theorem addmul_commutative_witness :
    (0x38 : Nat) < 256 ∧ (0x40 : Nat) < 256 ∧
    IsNaN 0x38 = false ∧ IsInf 0x38 = false ∧ IsNaN 0x40 = false ∧ IsInf 0x40 = false ∧
    ¬(IsZero 0x38 = true ∧ IsZero 0x40 = true ∧ (0x38 : Nat) ≠ 0x40) ∧
    addAlgorithmic 0x38 0x40 = addAlgorithmic 0x40 0x38 ∧
    mulAlgorithmic 0x38 0x40 = mulAlgorithmic 0x40 0x38 := by
  refine ⟨by decide, by decide, by decide, by decide, by decide, by decide, by decide, ?_, ?_⟩
  · exact (addmul_commutative 0x38 0x40 (by decide) (by decide) (by decide) (by decide)
      (by decide) (by decide)).1 (by decide)
  · exact (addmul_commutative 0x38 0x40 (by decide) (by decide) (by decide) (by decide)
      (by decide) (by decide)).2

/-- Negation preserves the zero / infinity / NaN classification. -/
theorem neg_class : ∀ b < 256, IsZero (Float8.Neg b) = IsZero b ∧
    IsInf (Float8.Neg b) = IsInf b ∧ IsNaN (Float8.Neg b) = IsNaN b := by decide

/-- Decoding a negated nonzero non-NaN byte flips exactly the float32
sign bit. -/
theorem decode_neg : ∀ b < 256, IsZero b = false → IsNaN b = false →
    ToFloat32 (Float8.Neg b) = ToFloat32 b ^^^ 0x80000000 := by decide

/-- Both 8-bit NaN patterns (and their negations) decode to the quiet
float32 NaN. -/
theorem decode_nan : ∀ b < 256, IsNaN b = true →
    ToFloat32 b = qNaN32 ∧ ToFloat32 (Float8.Neg b) = qNaN32 := by decide

theorem f32add_nan_right (x y : Nat) (hy : isNaN32 y = true) : f32add x y = qNaN32 := by
  unfold f32add
  simp [hy]

theorem isZero_ne {a : Nat} (h : IsZero a = false) : a ≠ 0 ∧ a ≠ 128 := by
  simpa [IsZero, PositiveZero, NegativeZero, Bool.or_eq_false_iff] using h

theorem isInf_ne {a : Nat} (h : IsInf a = false) : a ≠ 120 ∧ a ≠ 248 := by
  simpa [IsInf, PositiveInfinity, NegativeInfinity, Bool.or_eq_false_iff] using h

/-- C8 (amended): `subAlgorithmic(a, b) = addAlgorithmic(a, b.Neg())` for
every operand pair except the two oppositely-signed zero pairs. -/
theorem sub_eq_add_neg_amended (a b : Nat) (ha : a < 256) (hb : b < 256)
    (hexc : ¬(IsZero a = true ∧ IsZero b = true ∧ a ≠ b)) :
    subAlgorithmic a b = addAlgorithmic a (Float8.Neg b) := by
  by_cases zb : IsZero b = true
  · have hnb : Float8.Neg b = b := by simp [Float8.Neg, zb]
    rw [hnb]
    by_cases za : IsZero a = true
    · have hab : a = b := by
        by_contra hne
        exact hexc ⟨za, zb, hne⟩
      subst hab
      simp [subAlgorithmic, addAlgorithmic, za]
    · simp [subAlgorithmic, addAlgorithmic, za, zb]
  · by_cases za : IsZero a = true
    · simp [subAlgorithmic, addAlgorithmic, za, zb]
    · rw [Bool.not_eq_true] at za zb
      have zb' : IsZero (Float8.Neg b) = false := by rw [(neg_class b hb).1]; exact zb
      obtain ⟨za1, za2⟩ := isZero_ne za
      obtain ⟨zb1, zb2⟩ := isZero_ne zb
      obtain ⟨zb1', zb2'⟩ := isZero_ne zb'
      by_cases ia : IsInf a = true <;> by_cases ib : IsInf b = true
      · rcases isInf_iff.mp ia with rfl | rfl <;> rcases isInf_iff.mp ib with rfl | rfl <;>
          decide
      · -- a infinite, b finite nonzero
        rw [Bool.not_eq_true] at ib
        have ib' : IsInf (Float8.Neg b) = false := by rw [(neg_class b hb).2.1]; exact ib
        obtain ⟨ib1, ib2⟩ := isInf_ne ib
        obtain ⟨ib1', ib2'⟩ := isInf_ne ib'
        rcases isInf_iff.mp ia with rfl | rfl
        · have h1 : (120 : Nat) ≠ b := fun h => ib1 h.symm
          simp +decide [subAlgorithmic, addAlgorithmic, zb, zb', ib1', ib2', h1,
            PositiveInfinity, NegativeInfinity]
        · have h1 : (248 : Nat) ≠ b := fun h => ib2 h.symm
          simp +decide [subAlgorithmic, addAlgorithmic, zb, zb', ib1', ib2', h1,
            PositiveInfinity, NegativeInfinity]
      · -- b infinite, a finite nonzero
        rw [Bool.not_eq_true] at ia
        have ib' : IsInf (Float8.Neg b) = true := by rw [(neg_class b hb).2.1]; exact ib
        obtain ⟨ia1, ia2⟩ := isInf_ne ia
        rcases isInf_iff.mp ib with rfl | rfl
        · have h1 : a ≠ 120 := ia1
          simp +decide [subAlgorithmic, addAlgorithmic, za, ia, h1, ia2,
            PositiveInfinity, NegativeInfinity, Float8.Neg, IsZero, PositiveZero,
            NegativeZero, SignMask]
        · have h1 : a ≠ 248 := ia2
          simp +decide [subAlgorithmic, addAlgorithmic, za, ia, h1, ia1,
            PositiveInfinity, NegativeInfinity, Float8.Neg, IsZero, PositiveZero,
            NegativeZero, SignMask]
      · -- both non-infinite: the float32 path
        rw [Bool.not_eq_true] at ia ib
        have ib' : IsInf (Float8.Neg b) = false := by rw [(neg_class b hb).2.1]; exact ib
        obtain ⟨ia1, ia2⟩ := isInf_ne ia
        obtain ⟨ib1, ib2⟩ := isInf_ne ib
        obtain ⟨ib1', ib2'⟩ := isInf_ne ib'
        simp only [subAlgorithmic, addAlgorithmic, za, zb, zb', ia, ib, ib',
          Bool.or_self, Bool.false_eq_true, if_false]
        by_cases nb : IsNaN b = true
        · obtain ⟨h1, h2⟩ := decode_nan b hb nb
          rw [f32sub, h1, h2, f32add_nan_right _ _ (by decide),
            f32add_nan_right _ _ (by decide)]
        · rw [Bool.not_eq_true] at nb
          rw [f32sub, decode_neg b hb zb nb]

/-- C8 (counterexample): `sub(+0, -0) = +0` but `add(+0, Neg(-0)) =
add(+0, -0) = -0`, because `Neg` preserves zero signs. -/
theorem sub_eq_add_neg_counterexample :
    subAlgorithmic PositiveZero NegativeZero ≠
      addAlgorithmic PositiveZero (Float8.Neg NegativeZero) := by decide

theorem sub_eq_add_neg_amended_witness :
    (0x40 : Nat) < 256 ∧ (0x38 : Nat) < 256 ∧
    ¬(IsZero 0x40 = true ∧ IsZero 0x38 = true ∧ (0x40 : Nat) ≠ 0x38) ∧
    subAlgorithmic 0x40 0x38 = addAlgorithmic 0x40 (Float8.Neg 0x38) :=
  ⟨by decide, by decide, by decide,
    sub_eq_add_neg_amended 0x40 0x38 (by decide) (by decide) (by decide)⟩

/-- Decodes of non-NaN bytes are not float32 NaN. -/
theorem decode_not_nan32 : ∀ x < 256, IsNaN x = false → isNaN32 (ToFloat32 x) = false := by
  decide

/-- Decodes of finite bytes are not float32 infinities. -/
theorem decode_not_inf32 : ∀ x < 256, IsNaN x = false → IsInf x = false →
    isInf32 (ToFloat32 x) = false := by decide

/-- The two zero bytes decode to float32 value zero. -/
theorem decode_val_zero : val32 (ToFloat32 0) = 0 ∧ val32 (ToFloat32 128) = 0 := by decide

/-- Finite nonzero bytes with clear sign bit decode to positive values. -/
theorem decode_val_pos : ∀ x < 128, IsNaN x = false → IsInf x = false → IsZero x = false →
    0 < val32 (ToFloat32 x) := by decide

/-- Finite nonzero bytes with set sign bit decode to negative values. -/
theorem decode_val_neg : ∀ x < 256, 128 ≤ x → IsNaN x = false → IsInf x = false →
    IsZero x = false → val32 (ToFloat32 x) < 0 := by decide

/-- Magnitude of a decoded finite nonzero byte, in units of 2^(-149):
(8 + mantissa)·2^(exponent field + 139). -/
theorem decode_val_abs : ∀ x < 256, IsNaN x = false → IsInf x = false → IsZero x = false →
    (val32 (ToFloat32 x)).natAbs = (8 + x % 8) <<< (x / 8 % 16 + 139) := by decide

/-- The magnitude map (e, m) ↦ (8+m)·2^e is injective on the byte field
ranges. -/
theorem mag_inj : ∀ e1 : Fin 16, ∀ m1 : Fin 8, ∀ e2 : Fin 16, ∀ m2 : Fin 8,
    (8 + m1.val) <<< e1.val = (8 + m2.val) <<< e2.val →
    (e1.val, m1.val) = (e2.val, m2.val) := by decide

theorem shift_strip {u v k : Nat} (h : u <<< k = v <<< k) : u = v := by
  rw [Nat.shiftLeft_eq, Nat.shiftLeft_eq] at h
  exact Nat.eq_of_mul_eq_mul_right (Nat.two_pow_pos k) h

/-- Decoding is injective on finite nonzero bytes (as float32 values). -/
theorem decode_val_inj (a b : Nat) (ha : a < 256) (hb : b < 256)
    (hna : IsNaN a = false) (hia : IsInf a = false) (hza : IsZero a = false)
    (hnb : IsNaN b = false) (hib : IsInf b = false) (hzb : IsZero b = false)
    (hv : val32 (ToFloat32 a) = val32 (ToFloat32 b)) : a = b := by
  have habs : (val32 (ToFloat32 a)).natAbs = (val32 (ToFloat32 b)).natAbs := by rw [hv]
  rw [decode_val_abs a ha hna hia hza, decode_val_abs b hb hnb hib hzb] at habs
  rw [Nat.shiftLeft_add, Nat.shiftLeft_add] at habs
  have hm := mag_inj ⟨a / 8 % 16, by omega⟩ ⟨a % 8, by omega⟩
    ⟨b / 8 % 16, by omega⟩ ⟨b % 8, by omega⟩ (shift_strip habs)
  simp only [Prod.mk.injEq] at hm
  have hsgn : a < 128 ↔ b < 128 := by
    constructor
    · intro h1
      by_contra h2
      have p := decode_val_pos a h1 hna hia hza
      have n := decode_val_neg b hb (by omega) hnb hib hzb
      omega
    · intro h1
      by_contra h2
      have p := decode_val_pos b h1 hnb hib hzb
      have n := decode_val_neg a ha (by omega) hna hia hza
      omega
  omega

/-- For finite operands, `Less` is the decoded-value order, except that
two zeros always compare not-less. -/
theorem less_finite (a b : Nat) (ha : a < 256) (hb : b < 256)
    (hna : IsNaN a = false) (hnb : IsNaN b = false)
    (hia : IsInf a = false) (hib : IsInf b = false) :
    Less a b = (!(IsZero a && IsZero b) &&
      decide (val32 (ToFloat32 a) < val32 (ToFloat32 b))) := by
  obtain ⟨ia1, ia2⟩ := isInf_ne hia
  obtain ⟨ib1, ib2⟩ := isInf_ne hib
  have h1 := decode_not_nan32 a ha hna
  have h2 := decode_not_nan32 b hb hnb
  have h3 := decode_not_inf32 a ha hna hia
  have h4 := decode_not_inf32 b hb hnb hib
  by_cases hz : (IsZero a && IsZero b) = true
  · simp [Less, hna, hnb, hz]
  · rw [Bool.not_eq_true] at hz
    simp [Less, hna, hnb, hz, hia, hib, ia1, ia2, ib1, ib2, f32lt, h1, h2, extv, h3, h4,
      PositiveInfinity, NegativeInfinity]

/-- C9 (amended): Min and Max map any pair with a NaN operand to NaN, and
are commutative for every pair except the two oppositely-signed zero
pairs. -/
theorem minmax_amended (a b : Nat) (ha : a < 256) (hb : b < 256) :
    ((IsNaN a = true ∨ IsNaN b = true) → Float8.Min a b = NaN ∧ Float8.Max a b = NaN) ∧
    (¬(IsZero a = true ∧ IsZero b = true ∧ a ≠ b) →
      Float8.Min a b = Float8.Min b a ∧ Float8.Max a b = Float8.Max b a) := by
  constructor
  · intro h
    rcases h with h | h <;> simp [Float8.Min, Float8.Max, h]
  · intro hexc
    by_cases hna : IsNaN a = true
    · simp [Float8.Min, Float8.Max, hna]
    by_cases hnb : IsNaN b = true
    · simp [Float8.Min, Float8.Max, hnb]
    rw [Bool.not_eq_true] at hna hnb
    by_cases hia : IsInf a = true
    · rcases isInf_iff.mp hia with rfl | rfl <;> by_cases hib : IsInf b = true
      · rcases isInf_iff.mp hib with rfl | rfl <;> exact ⟨rfl, rfl⟩
      · rw [Bool.not_eq_true] at hib
        obtain ⟨ib1, ib2⟩ := isInf_ne hib
        simp +decide [Float8.Min, Float8.Max, hnb, ib1, ib2, PositiveInfinity, NegativeInfinity]
      · rcases isInf_iff.mp hib with rfl | rfl <;> exact ⟨rfl, rfl⟩
      · rw [Bool.not_eq_true] at hib
        obtain ⟨ib1, ib2⟩ := isInf_ne hib
        simp +decide [Float8.Min, Float8.Max, hnb, ib1, ib2, PositiveInfinity, NegativeInfinity]
    by_cases hib : IsInf b = true
    · rw [Bool.not_eq_true] at hia
      obtain ⟨ia1, ia2⟩ := isInf_ne hia
      rcases isInf_iff.mp hib with rfl | rfl <;>
        simp +decide [Float8.Min, Float8.Max, hna, ia1, ia2, PositiveInfinity, NegativeInfinity]
    rw [Bool.not_eq_true] at hia hib
    obtain ⟨ia1, ia2⟩ := isInf_ne hia
    obtain ⟨ib1, ib2⟩ := isInf_ne hib
    have hMinab : Float8.Min a b = if Less a b then a else b := by
      simp [Float8.Min, hna, hnb, ia1, ia2, ib1, ib2, PositiveInfinity, NegativeInfinity]
    have hMinba : Float8.Min b a = if Less b a then b else a := by
      simp [Float8.Min, hna, hnb, ia1, ia2, ib1, ib2, PositiveInfinity, NegativeInfinity]
    have hMaxab : Float8.Max a b = if Less b a then a else b := by
      simp [Float8.Max, Greater, hna, hnb, ia1, ia2, ib1, ib2, PositiveInfinity, NegativeInfinity]
    have hMaxba : Float8.Max b a = if Less a b then b else a := by
      simp [Float8.Max, Greater, hna, hnb, ia1, ia2, ib1, ib2, PositiveInfinity, NegativeInfinity]
    rw [hMinab, hMinba, hMaxab, hMaxba,
      less_finite a b ha hb hna hnb hia hib, less_finite b a hb ha hnb hna hib hia]
    by_cases za : IsZero a = true <;> by_cases zb : IsZero b = true
    · have hab : a = b := by
        by_contra hne
        exact hexc ⟨za, zb, hne⟩
      subst hab; exact ⟨rfl, rfl⟩
    · rw [Bool.not_eq_true] at zb
      have h0 : val32 (ToFloat32 a) = 0 := by
        rcases isZero_iff.mp za with rfl | rfl
        · exact decode_val_zero.1
        · exact decode_val_zero.2
      by_cases hsb : b < 128
      · have hp := decode_val_pos b hsb hnb hib zb
        have hq : ¬(val32 (ToFloat32 b) < val32 (ToFloat32 a)) := by omega
        have hq2 : val32 (ToFloat32 a) < val32 (ToFloat32 b) := by omega
        simp [za, zb, hq, hq2]
      · have hp := decode_val_neg b hb (by omega) hnb hib zb
        have hq : val32 (ToFloat32 b) < val32 (ToFloat32 a) := by omega
        have hq2 : ¬(val32 (ToFloat32 a) < val32 (ToFloat32 b)) := by omega
        simp [za, zb, hq, hq2]
    · rw [Bool.not_eq_true] at za
      have h0 : val32 (ToFloat32 b) = 0 := by
        rcases isZero_iff.mp zb with rfl | rfl
        · exact decode_val_zero.1
        · exact decode_val_zero.2
      by_cases hsa : a < 128
      · have hp := decode_val_pos a hsa hna hia za
        have hq : val32 (ToFloat32 b) < val32 (ToFloat32 a) := by omega
        have hq2 : ¬(val32 (ToFloat32 a) < val32 (ToFloat32 b)) := by omega
        simp [za, zb, hq, hq2]
      · have hp := decode_val_neg a ha (by omega) hna hia za
        have hq : ¬(val32 (ToFloat32 b) < val32 (ToFloat32 a)) := by omega
        have hq2 : val32 (ToFloat32 a) < val32 (ToFloat32 b) := by omega
        simp [za, zb, hq, hq2]
    · rw [Bool.not_eq_true] at za zb
      by_cases hlt : val32 (ToFloat32 a) < val32 (ToFloat32 b)
      · have hq : ¬(val32 (ToFloat32 b) < val32 (ToFloat32 a)) := by omega
        simp [za, zb, hlt, hq]
      · by_cases hlt2 : val32 (ToFloat32 b) < val32 (ToFloat32 a)
        · simp [za, zb, hlt, hlt2]
        · have heq : val32 (ToFloat32 a) = val32 (ToFloat32 b) := by omega
          have hab := decode_val_inj a b ha hb hna hia za hnb hib zb heq
          subst hab; exact ⟨rfl, rfl⟩

/-- C9 (counterexample): `Min(+0, -0) = -0` but `Min(-0, +0) = +0`
(the final branch returns the second operand when neither strictly
compares less). -/
theorem minmax_counterexample :
    Float8.Min PositiveZero NegativeZero ≠ Float8.Min NegativeZero PositiveZero := by decide

theorem minmax_amended_witness :
    (0x38 : Nat) < 256 ∧ (0x40 : Nat) < 256 ∧
    ¬(IsZero 0x38 = true ∧ IsZero 0x40 = true ∧ (0x38 : Nat) ≠ 0x40) ∧
    Float8.Min 0x38 0x40 = Float8.Min 0x40 0x38 ∧
    Float8.Max 0x38 0x40 = Float8.Max 0x40 0x38 :=
  ⟨by decide, by decide, by decide,
    (minmax_amended 0x38 0x40 (by decide) (by decide)).2 (by decide)⟩
